import Mathlib

/-!
Verification of the JSON-file key-value store (`src/database.py`).

The embedding models:
* the JSON value universe (`JValue`), since Python's `dict` is insertion
  ordered it is represented by an association list with the source's
  first-match lookup / in-place overwrite / append-if-new semantics;
* the backing file (`FileContent`) at the level of the parsed document,
  together with the ways reading it can fail (missing file, unreadable
  file, non-UTF-8 bytes, text that is not valid JSON);
* the Python exceptions that the source's `try/except` clauses
  distinguish (`PyExn`);
* persist-time I/O failure injection (`SaveEnv`): `_save_data` writes the
  serialized mapping to a temporary file and atomically renames it onto
  the target, so on a write or rename failure the target file is left
  exactly as it was (this atomicity of `Path.replace` is the one library
  fact the model bakes in);
* a small heap model (`Heap`, `HObj`) of Python object identity, used to
  analyse the aliasing behaviour of the shallow `dict.copy()` in
  `get_all`.
-/

namespace JsonDB

/-- The JSON value universe: null, boolean, number, string, ordered
sequence, string-keyed mapping.  Mappings are association lists in
insertion order, mirroring Python's insertion-ordered `dict`. -/
inductive JValue where
  | null : JValue
  | bool (b : Bool) : JValue
  | num (n : Int) : JValue
  | str (s : String) : JValue
  | arr (items : List JValue) : JValue
  | obj (entries : List (String × JValue)) : JValue

/-- The Python exceptions distinguished by the source's `try/except`
clauses and raised by its operations. -/
inductive PyExn where
  | fileNotFound : PyExn
  | jsonDecodeError : PyExn
  | unicodeDecodeError : PyExn
  | permissionError : PyExn
  | ioError (msg : String) : PyExn
  | typeError : PyExn
  | attributeError : PyExn
deriving DecidableEq

/-- State of the backing file on disk.  `json doc` is a file whose text
parses as the JSON document `doc`; `malformed raw` is readable UTF-8 text
that is not valid JSON; `notUtf8` is a file whose bytes cannot be decoded
as UTF-8; `unreadable` is a file that exists but cannot be opened or read
(e.g. permission denied). -/
inductive FileContent where
  | absent : FileContent
  | unreadable : FileContent
  | notUtf8 : FileContent
  | malformed (raw : String) : FileContent
  | json (doc : JValue) : FileContent

/-- Outcome of `open(path, "r", encoding="utf-8")` followed by
`json.load(file)` on a file in the given state, per Python library
semantics: a missing file raises `FileNotFoundError`, an unreadable file
raises an `OSError` such as `PermissionError`, non-UTF-8 bytes raise
`UnicodeDecodeError`, text that is not JSON raises
`json.JSONDecodeError`, and otherwise the parsed document is returned
(whatever its top-level type). -/
def readJson : FileContent → Except PyExn JValue
  | .absent => .error .fileNotFound
  | .unreadable => .error .permissionError
  | .notUtf8 => .error .unicodeDecodeError
  | .malformed _ => .error .jsonDecodeError
  | .json doc => .ok doc

/-- The warning printed by `load_data` when the file is not valid JSON. -/
def invalidJsonWarning (file_path : String) : String :=
  "Warning: Invalid JSON file at " ++ file_path ++ ". Starting with empty data."

/-- `Database.load_data` (src/database.py lines 37-57): try to read and
parse the file; `except FileNotFoundError` returns `{}`;
`except json.JSONDecodeError` prints a warning and returns `{}`; every
other exception propagates.  The result pairs the loaded value with the
warning printed, if any. -/
def load_data (file_path : String) (fc : FileContent) :
    Except PyExn (JValue × Option String) :=
  match readJson fc with
  | .ok doc => .ok (doc, none)
  | .error .fileNotFound => .ok (.obj [], none)
  | .error .jsonDecodeError => .ok (.obj [], some (invalidJsonWarning file_path))
  | .error e => .error e

/-- The store.  `data` is the in-memory value loaded from / persisted to
disk (a mapping in every in-contract state, but `load_data` can produce
any JSON value, see C8); `disk` is the current state of the backing file;
`saves` instruments the number of `_save_data` calls (each is one
temp-file write plus rename). -/
structure Database where
  file_path : String
  data : JValue
  disk : FileContent
  saves : Nat

/-- `Database.__init__` (lines 15-27): ensure the directory exists, then
load.  The constructed store carries the loaded data; the file itself is
not touched by construction.  Load-time exceptions other than the two
caught ones propagate out of the constructor. -/
def Database.init (file_path : String) (fc : FileContent) :
    Except PyExn (Database × Option String) :=
  match load_data file_path fc with
  | .ok (d, w) =>
      .ok ({ file_path := file_path, data := d, disk := fc, saves := 0 }, w)
  | .error e => .error e

/-- Injected outcome of the persist step's I/O: the temp-file write and
the atomic rename both succeed, or one of them fails with the given
underlying error message. -/
inductive SaveEnv where
  | success : SaveEnv
  | writeFail (cause : String) : SaveEnv
  | renameFail (cause : String) : SaveEnv

/-- `Database._save_data` (lines 59-81): serialize `self.data` to a
temporary file, then atomically rename it onto the target.  On success
the target file now holds exactly the serialized in-memory data.  If the
write or the rename fails, the target file is untouched (the temp-file
strategy plus atomic `Path.replace` never leaves a half-written target)
and the caught `IOError` is re-raised wrapped with the file path,
carrying the underlying cause.  The mutated in-memory data is never
rolled back. -/
def Database._save_data (env : SaveEnv) (db : Database) : Database × Option PyExn :=
  match env with
  | .success => ({ db with disk := .json db.data, saves := db.saves + 1 }, none)
  | .writeFail cause =>
      ({ db with saves := db.saves + 1 },
       some (.ioError ("Failed to save data to " ++ db.file_path ++ ": " ++ cause)))
  | .renameFail cause =>
      ({ db with saves := db.saves + 1 },
       some (.ioError ("Failed to save data to " ++ db.file_path ++ ": " ++ cause)))

/-- First-match association-list lookup: `d.get(k)` / `k in d`. -/
def assocGet {α : Type} : List (String × α) → String → Option α
  | [], _ => none
  | (k0, v0) :: t, k => if k0 = k then some v0 else assocGet t k

/-- `d[k] = v` on an insertion-ordered dict: overwrite in place if the
key is present (keeping its position), otherwise append at the end. -/
def assocSet {α : Type} : List (String × α) → String → α → List (String × α)
  | [], k, v => [(k, v)]
  | (k0, v0) :: t, k, v =>
      if k0 = k then (k, v) :: t else (k0, v0) :: assocSet t k v

/-- `del d[k]`: remove the key's entry. -/
def assocErase {α : Type} : List (String × α) → String → List (String × α)
  | [], _ => []
  | (k0, v0) :: t, k => if k0 = k then assocErase t k else (k0, v0) :: assocErase t k

/-- `d.update(m)`: set each entry of `m` in iteration order. -/
def assocUpdate {α : Type} (l m : List (String × α)) : List (String × α) :=
  m.foldl (fun acc kv => assocSet acc kv.1 kv.2) l

/-- `Database.get` (lines 83-100): `self.data.get(key, default)`.  On a
non-mapping receiver Python raises (e.g. `AttributeError`); that branch is
outside the verified domain. -/
def Database.get (db : Database) (key : String) (default : JValue) :
    Except PyExn JValue :=
  match db.data with
  | .obj l => .ok ((assocGet l key).getD default)
  | _ => .error .attributeError

/-- `Database.set` (lines 102-115): `self.data[key] = value` then
`self._save_data()`.  The mutation happens before the persist, so a
persist failure leaves the mutation in memory.  Non-mapping receivers are
outside the verified domain. -/
def Database.set (env : SaveEnv) (db : Database) (key : String) (value : JValue) :
    Database × Option PyExn :=
  match db.data with
  | .obj l => Database._save_data env { db with data := .obj (assocSet l key value) }
  | _ => (db, some .typeError)

/-- `Database.delete` (lines 117-136): if the key is present, delete it,
persist and return `True`; otherwise return `False` without touching the
disk.  The result pairs the (possibly mutated) store with the returned
boolean or the propagated persist exception. -/
def Database.delete (env : SaveEnv) (db : Database) (key : String) :
    Database × Except PyExn Bool :=
  match db.data with
  | .obj l =>
      if (assocGet l key).isSome then
        match Database._save_data env { db with data := .obj (assocErase l key) } with
        | (db', none) => (db', .ok true)
        | (db', some e) => (db', .error e)
      else (db, .ok false)
  | _ => (db, .error .typeError)

/-- `Database.clear` (lines 138-144): `self.data.clear()` then persist
(even when already empty).  Non-mapping receivers are outside the
verified domain. -/
def Database.clear (env : SaveEnv) (db : Database) : Database × Option PyExn :=
  match db.data with
  | .obj _ => Database._save_data env { db with data := .obj [] }
  | _ => (db, some .attributeError)

/-- `Database.exists` (lines 146-161): `key in self.data`. -/
def Database.exists (db : Database) (key : String) : Except PyExn Bool :=
  match db.data with
  | .obj l => .ok (assocGet l key).isSome
  | _ => .error .typeError

/-- `Database.update` (lines 163-174): `self.data.update(updates)` then a
single `self._save_data()` for the whole batch.  `updates` is a Python
dict, given by its entries in iteration order (so its keys are distinct). -/
def Database.update (env : SaveEnv) (db : Database)
    (updates : List (String × JValue)) : Database × Option PyExn :=
  match db.data with
  | .obj l => Database._save_data env { db with data := .obj (assocUpdate l updates) }
  | _ => (db, some .attributeError)

/-- `Database.get_all` (lines 176-186): `self.data.copy()`, as a value.
Object-identity consequences of the copy being shallow are modelled by
the heap model below. -/
def Database.get_all (db : Database) : Except PyExn JValue :=
  match db.data with
  | .obj l => .ok (.obj l)
  | _ => .error .attributeError

/-! ### Heap model of Python object identity

`self.data.copy()` is a shallow copy: the new dict object is distinct
from `self.data`, but its entries reference the very same value objects.
To reason about what a caller can mutate through the returned copy we
model a heap of Python objects: immutable leaves, mutable lists, mutable
dicts referencing other objects by address. -/

/-- A heap address: Python object identity. -/
abbrev Addr := Nat

/-- A Python object on the heap: an immutable value, a mutable list of
references, or a mutable string-keyed dict of references. -/
inductive HObj where
  | hVal (v : JValue) : HObj
  | hList (elems : List Addr) : HObj
  | hDict (entries : List (String × Addr)) : HObj

/-- The heap: object at address `a` is the list entry at index `a`;
allocation appends. -/
abbrev Heap := List HObj

/-- Allocate a fresh object, returning the new heap and its address. -/
def Heap.alloc (h : Heap) (o : HObj) : Heap × Addr := (h ++ [o], h.length)

/-- `dict.copy()` on the dict object at `root`: allocate a NEW dict
object holding the SAME entry list (same value addresses) — a shallow
copy, exactly what `get_all` returns. -/
def dict_copy (h : Heap) (root : Addr) : Heap × Addr :=
  match h.get? root with
  | some (.hDict es) => Heap.alloc h (.hDict es)
  | _ => (h, root)

/-- `lst.append(x)` on the list object at `a`: in-place mutation. -/
def list_append (h : Heap) (a : Addr) (x : Addr) : Heap :=
  match h.get? a with
  | some (.hList es) => h.set a (.hList (es ++ [x]))
  | _ => h

/-- `d[k] = x` on the dict object at `a`: in-place mutation of that one
dict object. -/
def dict_setEntry (h : Heap) (a : Addr) (k : String) (x : Addr) : Heap :=
  match h.get? a with
  | some (.hDict es) => h.set a (.hDict (assocSet es k x))
  | _ => h

/-- Read the JSON value an address denotes, dereferencing the heap
(fuel-bounded for termination).  Applied to the store's internal dict
address it gives "the store's internal state" as a value. -/
def resolve (h : Heap) : Nat → Addr → Option JValue
  | 0, _ => none
  | fuel + 1, a =>
      match h.get? a with
      | some (.hVal v) => some v
      | some (.hList es) => (es.mapM (resolve h fuel)).map JValue.arr
      | some (.hDict es) =>
          (es.mapM (fun kv => (resolve h fuel kv.2).map (fun v => (kv.1, v)))).map
            JValue.obj
      | none => none

/-! ### Association-list lemmas -/

theorem assocGet_assocSet {α : Type} (l : List (String × α)) (k k' : String) (v : α) :
    assocGet (assocSet l k v) k' = if k' = k then some v else assocGet l k' := by
  induction l with
  | nil =>
      by_cases h : k' = k
      · subst h; simp [assocSet, assocGet]
      · have h' : ¬k = k' := fun he => h he.symm
        simp [assocSet, assocGet, h, h']
  | cons p t ih =>
      obtain ⟨k0, v0⟩ := p
      by_cases h0 : k0 = k
      · subst h0
        by_cases h1 : k' = k0
        · subst h1; simp [assocSet, assocGet]
        · have h1' : ¬k0 = k' := fun he => h1 he.symm
          simp [assocSet, assocGet, h1, h1']
      · by_cases h1 : k0 = k'
        · subst h1
          simp [assocSet, assocGet, h0, fun he : k0 = k => h0 he]
        · have h1' : ¬k' = k0 := fun he => h1 he.symm
          simp [assocSet, assocGet, h0, h1, h1', ih]

theorem assocGet_eq_none_of_not_mem {α : Type} (l : List (String × α)) (k : String)
    (h : k ∉ l.map Prod.fst) : assocGet l k = none := by
  induction l with
  | nil => rfl
  | cons p t ih =>
      obtain ⟨k0, v0⟩ := p
      simp only [List.map_cons, List.mem_cons, not_or] at h
      have : ¬k0 = k := fun he => h.1 he.symm
      simp [assocGet, this, ih h.2]

theorem assocGet_assocErase {α : Type} (l : List (String × α)) (k k' : String) :
    assocGet (assocErase l k) k' = if k' = k then none else assocGet l k' := by
  induction l with
  | nil => simp [assocErase, assocGet]
  | cons p t ih =>
      obtain ⟨k0, v0⟩ := p
      by_cases h0 : k0 = k
      · subst h0
        by_cases h1 : k' = k0
        · subst h1; simp [assocErase, assocGet, ih]
        · have h1' : ¬k0 = k' := fun he => h1 he.symm
          simp [assocErase, assocGet, ih, h1, h1']
      · by_cases h1 : k0 = k'
        · subst h1
          simp [assocErase, assocGet, h0, ih]
        · have h1' : ¬k' = k0 := fun he => h1 he.symm
          simp [assocErase, assocGet, h0, h1, h1', ih]

theorem assocGet_assocUpdate {α : Type} (m : List (String × α)) (l : List (String × α))
    (k : String) (h : (m.map Prod.fst).Nodup) :
    assocGet (assocUpdate l m) k =
      match assocGet m k with
      | some v => some v
      | none => assocGet l k := by
  induction m generalizing l with
  | nil => simp [assocUpdate, assocGet]
  | cons p t ih =>
      obtain ⟨k0, v0⟩ := p
      simp only [List.map_cons, List.nodup_cons] at h
      have hstep : assocUpdate l ((k0, v0) :: t) = assocUpdate (assocSet l k0 v0) t := rfl
      rw [hstep, ih _ h.2]
      by_cases hk : k = k0
      · subst hk
        have hnone : assocGet t k = none := assocGet_eq_none_of_not_mem _ _ h.1
        simp [hnone, assocGet, assocGet_assocSet]
      · have : ¬k0 = k := fun he => hk he.symm
        simp only [assocGet, this, if_false]
        cases assocGet t k <;> simp [assocGet_assocSet, hk]

/-! ### Auxiliary constructions used by the claims -/

/-- The state of a store freshly constructed against a missing file. -/
def freshDB (p : String) : Database :=
  { file_path := p, data := .obj [], disk := .absent, saves := 0 }

/-- Run a sequence of `set` calls (all persists succeeding). -/
def runSets (db : Database) : List (String × JValue) → Database
  | [] => db
  | (k, v) :: rest => runSets (Database.set .success db k v).1 rest

/-! ### Claims -/

/-- Claim C1: for every successful mutating call (`set`, `delete` of an
existing key, `update`, `clear`), at the end of the call the content of
the backing file deserializes to exactly the store's in-memory mapping —
memory and disk do not drift while no operation is in flight. -/
theorem mutations_keep_disk_in_sync (db : Database) (l : List (String × JValue))
    (k kd : String) (v : JValue) (m : List (String × JValue))
    (hdata : db.data = .obj l) (hd : (assocGet l kd).isSome = true) :
    readJson (db.set .success k v).1.disk = .ok (db.set .success k v).1.data ∧
    readJson (db.delete .success kd).1.disk = .ok (db.delete .success kd).1.data ∧
    readJson (db.update .success m).1.disk = .ok (db.update .success m).1.data ∧
    readJson (db.clear .success).1.disk = .ok (db.clear .success).1.data := by
  refine ⟨?_, ?_, ?_, ?_⟩ <;>
    simp [Database.set, Database.delete, Database.update, Database.clear,
      Database._save_data, hdata, hd, readJson]

/-- Witness for C1 at a concrete store holding `{"b": null}`. -/
theorem mutations_keep_disk_in_sync_witness :
    (assocGet [("b", JValue.null)] "b").isSome = true ∧
    readJson (Database.set .success
        { file_path := "db.json", data := .obj [("b", .null)], disk := .absent, saves := 0 }
        "a" .null).1.disk =
      .ok (Database.set .success
        { file_path := "db.json", data := .obj [("b", .null)], disk := .absent, saves := 0 }
        "a" .null).1.data :=
  ⟨by decide, (mutations_keep_disk_in_sync
      { file_path := "db.json", data := .obj [("b", .null)], disk := .absent, saves := 0 }
      [("b", .null)] "a" "b" .null [] rfl (by decide)).1⟩

/-- Claim C2: for every mutating operation, if the persist step's write
or rename fails, then (1) the previously persisted target file on disk is
unchanged (never half-written), (2) the error surfaces to the caller as a
storage-I/O failure carrying the underlying cause, and (3) the in-memory
mapping retains the attempted mutation (no rollback). -/
theorem persist_failure_contract (db : Database) (l : List (String × JValue))
    (env : SaveEnv) (c : String) (k kd : String) (v : JValue) (m : List (String × JValue))
    (hdata : db.data = .obj l) (hd : (assocGet l kd).isSome = true)
    (henv : env = .writeFail c ∨ env = .renameFail c) :
    ((db.set env k v).1.disk = db.disk ∧
      (db.set env k v).1.data = .obj (assocSet l k v) ∧
      (db.set env k v).2 =
        some (.ioError ("Failed to save data to " ++ db.file_path ++ ": " ++ c))) ∧
    ((db.delete env kd).1.disk = db.disk ∧
      (db.delete env kd).1.data = .obj (assocErase l kd) ∧
      (db.delete env kd).2 =
        .error (.ioError ("Failed to save data to " ++ db.file_path ++ ": " ++ c))) ∧
    ((db.update env m).1.disk = db.disk ∧
      (db.update env m).1.data = .obj (assocUpdate l m) ∧
      (db.update env m).2 =
        some (.ioError ("Failed to save data to " ++ db.file_path ++ ": " ++ c))) ∧
    ((db.clear env).1.disk = db.disk ∧
      (db.clear env).1.data = .obj [] ∧
      (db.clear env).2 =
        some (.ioError ("Failed to save data to " ++ db.file_path ++ ": " ++ c))) := by
  rcases henv with henv | henv <;> subst henv <;>
    refine ⟨⟨?_, ?_, ?_⟩, ⟨?_, ?_, ?_⟩, ⟨?_, ?_, ?_⟩, ⟨?_, ?_, ?_⟩⟩ <;>
    simp [Database.set, Database.delete, Database.update, Database.clear,
      Database._save_data, hdata, hd]

/-- Witness for C2: a failing rename while setting a key on a store
holding `{"b": null}`. -/
theorem persist_failure_contract_witness :
    (assocGet [("b", JValue.null)] "b").isSome = true ∧
    (SaveEnv.renameFail "disk full" = .writeFail "disk full" ∨
      SaveEnv.renameFail "disk full" = .renameFail "disk full") ∧
    (Database.set (.renameFail "disk full")
        { file_path := "db.json", data := .obj [("b", .null)],
          disk := .json (.obj [("b", .null)]), saves := 1 }
        "a" .null).2 =
      some (.ioError ("Failed to save data to db.json: disk full")) :=
  ⟨by decide, Or.inr rfl,
    (persist_failure_contract
      { file_path := "db.json", data := .obj [("b", .null)],
        disk := .json (.obj [("b", .null)]), saves := 1 }
      [("b", .null)] (.renameFail "disk full") "disk full" "a" "b" .null []
      rfl (by decide) (Or.inr rfl)).1.2.2⟩

/-- Claim C4: for every file content that fails to parse as JSON,
construction does not raise: the store initializes with an empty mapping
and the parse failure is only logged as a warning, never propagated. -/
theorem init_recovers_from_malformed (p raw : String) :
    Database.init p (.malformed raw) =
      .ok ({ file_path := p, data := .obj [], disk := .malformed raw, saves := 0 },
        some (invalidJsonWarning p)) := rfl

/-- Claim C8: a file holding a technically-valid JSON document whose top
level is not a mapping parses without error at construction, and the
parsed value becomes the initial in-memory state as itself — the load
path performs no top-level type validation. -/
theorem init_no_toplevel_validation (p : String) (doc : JValue) :
    Database.init p (.json doc) =
      .ok ({ file_path := p, data := doc, disk := .json doc, saves := 0 }, none) := rfl

/-- Claim C9: `set k v` leaves every other key `k'` untouched — `get`
with any default and `exists` answer the same before and after the call,
whatever the persist outcome. -/
theorem set_frame_other_keys (env : SaveEnv) (db : Database)
    (l : List (String × JValue)) (k k' : String) (v d : JValue)
    (hdata : db.data = .obj l) (hne : k' ≠ k) :
    ((db.set env k v).1.get k' d = db.get k' d) ∧
    ((db.set env k v).1.exists k' = db.exists k') := by
  cases env <;>
    simp [Database.set, Database.get, Database.exists, Database._save_data,
      hdata, assocGet_assocSet, hne]

/-- Witness for C9: setting `"a"` does not disturb `"b"`. -/
theorem set_frame_other_keys_witness :
    ("b" : String) ≠ "a" ∧
    ((Database.set .success
        { file_path := "db.json", data := .obj [("b", .num 2)], disk := .absent, saves := 0 }
        "a" (.num 1)).1.get "b" .null =
      Database.get
        { file_path := "db.json", data := .obj [("b", .num 2)], disk := .absent, saves := 0 }
        "b" .null) :=
  ⟨by decide,
    (set_frame_other_keys .success
      { file_path := "db.json", data := .obj [("b", .num 2)], disk := .absent, saves := 0 }
      [("b", .num 2)] "a" "b" (.num 1) .null rfl (by decide)).1⟩

/-- Claim C10: construction recovers only from a missing file and from a
JSON decode failure; if reading fails for any other reason (bytes that
are not valid UTF-8, a read permission error) the exception propagates to
the caller instead of yielding an empty store. -/
theorem init_propagates_other_read_errors (p raw : String) :
    Database.init p .absent = .ok (freshDB p, none) ∧
    Database.init p (.malformed raw) =
      .ok ({ file_path := p, data := .obj [], disk := .malformed raw, saves := 0 },
        some (invalidJsonWarning p)) ∧
    Database.init p .notUtf8 = .error .unicodeDecodeError ∧
    Database.init p .unreadable = .error .permissionError :=
  ⟨rfl, rfl, rfl, rfl⟩

/-- Claim C5: `update` merges every entry of the input mapping into the
store — overwriting the values of keys already present and leaving every
other existing key intact — and performs exactly one persist (one
temp-file write plus rename) for the whole batch, however many keys are
merged. -/
theorem update_merges_and_persists_once (db : Database) (l m : List (String × JValue))
    (hdata : db.data = .obj l) (hnodup : (m.map Prod.fst).Nodup) :
    (db.update .success m).1.data = .obj (assocUpdate l m) ∧
    (∀ k v, assocGet m k = some v → assocGet (assocUpdate l m) k = some v) ∧
    (∀ k, assocGet m k = none → assocGet (assocUpdate l m) k = assocGet l k) ∧
    (db.update .success m).1.saves = db.saves + 1 ∧
    (db.update .success m).2 = none := by
  refine ⟨?_, ?_, ?_, ?_, ?_⟩
  · simp [Database.update, Database._save_data, hdata]
  · intro k v hv
    rw [assocGet_assocUpdate m l k hnodup, hv]
  · intro k hv
    rw [assocGet_assocUpdate m l k hnodup, hv]
  · simp [Database.update, Database._save_data, hdata]
  · simp [Database.update, Database._save_data, hdata]

/-- Witness for C5: a two-key batch over a store holding `{"a": 1}`. -/
theorem update_merges_and_persists_once_witness :
    ((([("a", JValue.num 2), ("b", JValue.num 3)]).map Prod.fst).Nodup) ∧
    (Database.update .success
        { file_path := "db.json", data := .obj [("a", .num 1)], disk := .absent, saves := 0 }
        [("a", .num 2), ("b", .num 3)]).1.data =
      .obj (assocUpdate [("a", JValue.num 1)] [("a", .num 2), ("b", .num 3)]) ∧
    (Database.update .success
        { file_path := "db.json", data := .obj [("a", .num 1)], disk := .absent, saves := 0 }
        [("a", .num 2), ("b", .num 3)]).1.saves = 1 ∧
    (Database.update .success
        { file_path := "db.json", data := .obj [("a", .num 1)], disk := .absent, saves := 0 }
        [("a", .num 2), ("b", .num 3)]).2 = none := by
  have h := update_merges_and_persists_once
    { file_path := "db.json", data := .obj [("a", .num 1)], disk := .absent, saves := 0 }
    [("a", .num 1)] [("a", .num 2), ("b", .num 3)] rfl (by decide)
  exact ⟨by decide, h.1, h.2.2.2.1, h.2.2.2.2⟩

/-- Claim C6: `delete k` returns true exactly when `k` is present — that
call removes `k` and persists; when `k` is absent it returns false, with
no disk write and the store unchanged; after a true-returning delete,
further `delete k` calls return false until `k` is set again, after which
`delete k` returns true once more. -/
theorem delete_semantics (db : Database) (l : List (String × JValue))
    (k : String) (v : JValue) (hdata : db.data = .obj l) :
    ((assocGet l k).isSome = true →
      (db.delete .success k).2 = .ok true ∧
      (db.delete .success k).1.data = .obj (assocErase l k) ∧
      (db.delete .success k).1.disk = .json (.obj (assocErase l k)) ∧
      (db.delete .success k).1.saves = db.saves + 1 ∧
      ((db.delete .success k).1.delete .success k).2 = .ok false ∧
      ((db.delete .success k).1.delete .success k).1 = (db.delete .success k).1) ∧
    ((assocGet l k).isSome = false →
      (db.delete .success k).2 = .ok false ∧ (db.delete .success k).1 = db) ∧
    (((db.delete .success k).1.set .success k v).1.delete .success k).2 = .ok true := by
  refine ⟨?_, ?_, ?_⟩
  · intro h
    simp [Database.delete, Database._save_data, hdata, h, assocGet_assocErase]
  · intro h
    simp [Database.delete, hdata, h]
  · by_cases h : (assocGet l k).isSome
    · simp [Database.delete, Database.set, Database._save_data, hdata, h,
        assocGet_assocErase, assocGet_assocSet]
    · simp only [Bool.not_eq_true] at h
      simp [Database.delete, Database.set, Database._save_data, hdata, h,
        assocGet_assocSet]

/-- Witness for C6 on a store holding `{"a": 1}`. -/
theorem delete_semantics_witness :
    (assocGet [("a", JValue.num 1)] "a").isSome = true ∧
    (Database.delete .success
        { file_path := "db.json", data := .obj [("a", .num 1)],
          disk := .json (.obj [("a", .num 1)]), saves := 1 }
        "a").2 = .ok true ∧
    ((Database.delete .success
        { file_path := "db.json", data := .obj [("a", .num 1)],
          disk := .json (.obj [("a", .num 1)]), saves := 1 }
        "a").1.delete .success "a").2 = .ok false := by
  have h := delete_semantics
    { file_path := "db.json", data := .obj [("a", .num 1)],
      disk := .json (.obj [("a", .num 1)]), saves := 1 }
    [("a", .num 1)] "a" .null rfl
  exact ⟨by decide, (h.1 (by decide)).1, (h.1 (by decide)).2.2.2.2.1⟩

/-- After any run of successful `set` calls, the store's data is a
mapping, and the disk is either still the untouched absent file of a
fresh empty store or holds exactly the in-memory mapping. -/
theorem runSets_invariant (kvs : List (String × JValue)) (db : Database)
    (l : List (String × JValue)) (hdata : db.data = .obj l)
    (hdisk : (db.disk = .absent ∧ db.data = .obj []) ∨ db.disk = .json db.data) :
    ∃ l', (runSets db kvs).data = .obj l' ∧
      (((runSets db kvs).disk = .absent ∧ (runSets db kvs).data = .obj []) ∨
        (runSets db kvs).disk = .json (runSets db kvs).data) := by
  induction kvs generalizing db l with
  | nil => exact ⟨l, hdata, hdisk⟩
  | cons kv rest ih =>
      obtain ⟨k, v⟩ := kv
      have hstep : (Database.set .success db k v).1 =
          { file_path := db.file_path, data := .obj (assocSet l k v),
            disk := .json (.obj (assocSet l k v)), saves := db.saves + 1 } := by
        simp [Database.set, Database._save_data, hdata]
      show ∃ l', (runSets (Database.set .success db k v).1 rest).data = _ ∧ _
      exact ih _ (assocSet l k v) (by rw [hstep]) (Or.inr (by rw [hstep]))

/-- Claim C3: for any sequence of `set` calls against a fresh store,
constructing a second store against the resulting file yields a store
whose `get` returns, for every key, the same value as the first store —
serialization followed by deserialization is lossless. -/
theorem set_sequence_roundtrip (p q : String) (kvs : List (String × JValue)) :
    Database.init p .absent = .ok (freshDB p, none) ∧
    ∃ db2 w, Database.init q (runSets (freshDB p) kvs).disk = .ok (db2, w) ∧
      db2.data = (runSets (freshDB p) kvs).data ∧
      ∀ k d, db2.get k d = (runSets (freshDB p) kvs).get k d := by
  refine ⟨rfl, ?_⟩
  obtain ⟨l', hdata, hdisk⟩ := runSets_invariant kvs (freshDB p) [] rfl (Or.inl ⟨rfl, rfl⟩)
  rcases hdisk with ⟨habs, hempty⟩ | hjson
  · refine ⟨freshDB q, none, ?_, ?_, ?_⟩
    · rw [habs]; rfl
    · exact hempty.symm
    · intro k d
      have h2 : Database.get (freshDB q) k d = .ok ((assocGet [] k).getD d) := rfl
      rw [h2]
      simp [Database.get, hempty]
  · refine ⟨⟨q, (runSets (freshDB p) kvs).data, .json ((runSets (freshDB p) kvs).data), 0⟩,
      none, ?_, rfl, ?_⟩
    · rw [hjson]; rfl
    · intro k d
      simp [Database.get]

/-- A concrete heap: address 0 holds an empty list object, address 1 the
store's internal dict `{"recent": <addr 0>}`, address 2 a string value to
append. -/
def exampleHeap : Heap := [.hList [], .hDict [("recent", 0)], .hVal (.str "x")]

/-- `copy = store.get_all(); copy[k].append(x)`: take the shallow copy
returned by `get_all`, look up `k` in the copy (never touching the
store's own dict object), and mutate the list object found there. -/
def mutateThroughCopy (h : Heap) (root : Addr) (k : String) (x : Addr) : Heap :=
  let hc := dict_copy h root
  match hc.1.get? hc.2 with
  | some (.hDict es) =>
      match assocGet es k with
      | some a => list_append hc.1 a x
      | none => hc.1
  | _ => hc.1

/-- Claim C7 is false as stated: `get_all` returns `self.data.copy()`, a
SHALLOW copy, so mutating a nested sequence inside the returned value
does alter the store's internal state.  On `exampleHeap` (store state
`{"recent": []}`), appending `"x"` to the list obtained from the copy
changes the store's state to `{"recent": ["x"]}`. -/
theorem get_all_deep_independence_fails :
    resolve exampleHeap 3 1 = some (.obj [("recent", .arr [])]) ∧
    resolve (mutateThroughCopy exampleHeap 1 "recent" 2) 3 1 =
      some (.obj [("recent", .arr [.str "x"])]) ∧
    resolve (mutateThroughCopy exampleHeap 1 "recent" 2) 3 1 ≠
      resolve exampleHeap 3 1 := by
  refine ⟨rfl, rfl, ?_⟩
  intro h
  rw [show resolve (mutateThroughCopy exampleHeap 1 "recent" 2) 3 1 =
      some (.obj [("recent", .arr [.str "x"])]) from rfl,
    show resolve exampleHeap 3 1 = some (.obj [("recent", .arr [])]) from rfl] at h
  simp at h

/-- Claim C7 (amended): `get_all` returns a shallow copy — a fresh dict
object, distinct from the store's own, whose entries equal the store's
at the moment of the call; mutating the returned mapping itself (adding,
overwriting or removing keys) never alters the store's internal dict.
(Mutating nested mutable values inside the copy is shared with the
store — see the counterexample.) -/
theorem get_all_copy_top_level_independent (h : Heap) (root : Addr)
    (es : List (String × Addr)) (hroot : h.get? root = some (.hDict es)) :
    (dict_copy h root).2 ≠ root ∧
    (dict_copy h root).1.get? (dict_copy h root).2 = some (.hDict es) ∧
    (dict_copy h root).1.get? root = some (.hDict es) ∧
    ∀ k x, (dict_setEntry (dict_copy h root).1 (dict_copy h root).2 k x).get? root =
      some (.hDict es) := by
  have hroot' : h[root]? = some (.hDict es) := by
    rw [← List.get?_eq_getElem?]; exact hroot
  have hlt : root < h.length := (List.getElem?_eq_some_iff.mp hroot').1
  have hcopy : dict_copy h root = (h ++ [.hDict es], h.length) := by
    simp [dict_copy, Heap.alloc, hroot']
  have hget_c : (h ++ [HObj.hDict es]).get? h.length = some (.hDict es) := by
    rw [List.get?_eq_getElem?]
    exact List.getElem?_concat_length h (.hDict es)
  have hget_root : (h ++ [HObj.hDict es]).get? root = some (.hDict es) := by
    rw [List.get?_eq_getElem?, List.getElem?_append_left hlt, ← List.get?_eq_getElem?]
    exact hroot
  refine ⟨?_, ?_, ?_, ?_⟩
  · rw [hcopy]
    exact fun he => absurd (he ▸ hlt) (lt_irrefl _)
  · rw [hcopy]; exact hget_c
  · rw [hcopy]; exact hget_root
  · intro k x
    rw [hcopy]
    show (dict_setEntry (h ++ [HObj.hDict es]) h.length k x).get? root = some (.hDict es)
    rw [dict_setEntry, hget_c]
    rw [List.get?_eq_getElem?,
      List.getElem?_set_ne (fun he => absurd (he ▸ hlt) (lt_irrefl _)),
      ← List.get?_eq_getElem?]
    exact hget_root

/-- Witness for the amended C7 on `exampleHeap`. -/
theorem get_all_copy_top_level_independent_witness :
    exampleHeap.get? 1 = some (.hDict [("recent", 0)]) ∧
    (dict_copy exampleHeap 1).2 ≠ 1 ∧
    (dict_setEntry (dict_copy exampleHeap 1).1 (dict_copy exampleHeap 1).2 "recent" 2).get? 1 =
      some (.hDict [("recent", 0)]) :=
  ⟨rfl,
    (get_all_copy_top_level_independent exampleHeap 1 [("recent", 0)] rfl).1,
    (get_all_copy_top_level_independent exampleHeap 1 [("recent", 0)] rfl).2.2.2 "recent" 2⟩

end JsonDB
